import Mathlib

/-!
Verification of the PyStoreX state container core against its specification.

The development shallowly embeds the Python sources:
  - `reducers.py`   : `create_reducer` and `ReducerManager.reduce`
  - `store.py`      : `Store._dispatch_core`, `Store._apply_middleware_chain`,
                      `Store._wrap_obj_middleware`, `register_feature`, `unregister_feature`
  - `middleware.py` : `DebounceMiddleware`, `BatchMiddleware`, `ErrorMiddleware`
  - `store_selectors.py` : `create_selector` and `_safe_deep_equals`

Python reference identity (`is`) is modelled by an identity token `oid` carried
by every opaque object; structural content (deep `==`) by a token `val`.
-/

set_option maxHeartbeats 1000000

namespace PyStoreX

/-- An action (`actions.py`, class `Action`): a type string plus an opaque payload.
The `batch` constructor is the aggregate action built by `batch_action(items)` in
`middleware.py`, whose payload is the list of buffered actions.  Equality mirrors
`Action.__eq__`: by `(type, payload)`. -/
inductive PAction where
  | act (type : String) (payload : Option Nat)
  | batch (items : List PAction)

/-- Attribute access `action.type`; the aggregate action carries the fixed type string
given to `create_action` for `batch_action`. -/
def PAction.type : PAction → String
  | .act t _ => t
  | .batch _ => "[Batch] BatchAction"

/-- An opaque Python object: `oid` models CPython identity (two objects are
`is`-identical precisely when their `oid`s agree; distinct objects get distinct
`oid`s), `val` models structural content compared by deep equality. -/
structure Obj where
  oid : Nat
  val : Nat
deriving DecidableEq, Repr

/-- Python `is` between two modelled objects. -/
def objIs (a b : Obj) : Bool := a.oid == b.oid

@[simp]
theorem objIs_self (a : Obj) : objIs a a = true := by
  simp [objIs]

/-- The root state: an association list modelling an `immutables.Map` from feature key
to feature substate. -/
abbrev RootState := List (String × Obj)

/-- Map lookup `state_map.get(key)`: the first binding of the key, if any. -/
def lookupKey : RootState → String → Option Obj
  | [], _ => none
  | (k, v) :: rest, key => if k = key then some v else lookupKey rest key

/-- Evolver assignment `evolver[key] = v`: replace the binding when the key is present,
append a new binding otherwise. -/
def setKey : RootState → String → Obj → RootState
  | [], key, v => [(key, v)]
  | (k, w) :: rest, key, v =>
    if k = key then (key, v) :: rest else (k, w) :: setKey rest key v

theorem lookupKey_setKey_ne (s : RootState) (k key : String) (v : Obj)
    (h : k ≠ key) : lookupKey (setKey s k v) key = lookupKey s key := by
  induction s with
  | nil => simp [setKey, lookupKey, h]
  | cons p rest ih =>
    obtain ⟨k0, w⟩ := p
    by_cases hk : k0 = k
    · subst hk
      simp [setKey, lookupKey, h]
    · simp only [setKey, if_neg hk]
      by_cases hkey : k0 = key
      · subst hkey
        simp [lookupKey]
      · simp [lookupKey, hkey, ih]

/-- One registered feature reducer: `ReducerManager._feature_reducers` stores the
reducer function under `feature_key`; the reducer function carries its
`initial_state` attribute (set by `create_reducer`). -/
structure FeatureReducer where
  key : String
  initState : Obj
  run : Obj → Option PAction → Obj

/-- The loop body of `ReducerManager.reduce` (reducers.py lines 316-323): read the
previous substate from the incoming root (falling back to the reducer's declared
initial state), run the reducer, and write the key into the evolver only when the
result is not reference-identical (`is`) to the previous substate. -/
def reduceStep (state : RootState) (action : Option PAction) (ev : RootState)
    (f : FeatureReducer) : RootState :=
  let prev := (lookupKey state f.key).getD f.initState
  let next := f.run prev action
  if objIs next prev then ev else setKey ev f.key next

/-- ReducerManager.reduce (reducers.py lines 288-328): start an evolver from the
incoming root and fold the per-feature step over every registered reducer. -/
def ReducerManager.reduce (frs : List FeatureReducer) (state : RootState)
    (action : Option PAction) : RootState :=
  frs.foldl (reduceStep state action) state

theorem reduce_foldl_preserves (k : String) (state : RootState) (action : Option PAction)
    (frs : List FeatureReducer)
    (h : ∀ f ∈ frs, f.key = k →
      objIs (f.run ((lookupKey state k).getD f.initState) action)
            ((lookupKey state k).getD f.initState) = true) :
    ∀ acc, lookupKey acc k = lookupKey state k →
      lookupKey (frs.foldl (reduceStep state action) acc) k = lookupKey state k := by
  induction frs with
  | nil => intro acc hacc; simpa using hacc
  | cons f rest ih =>
    intro acc hacc
    have hrest : ∀ g ∈ rest, g.key = k →
        objIs (g.run ((lookupKey state k).getD g.initState) action)
              ((lookupKey state k).getD g.initState) = true := by
      intro g hg
      exact h g (List.mem_cons_of_mem _ hg)
    simp only [List.foldl_cons]
    apply ih hrest
    by_cases hk : f.key = k
    · have hid := h f (List.mem_cons_self _ _) hk
      simp only [reduceStep, hk, hid, if_pos]
      exact hacc
    · simp only [reduceStep]
      by_cases hbr : objIs (f.run ((lookupKey state f.key).getD f.initState) action)
          ((lookupKey state f.key).getD f.initState) = true
      · simp only [hbr, if_pos]
        exact hacc
      · simp only [Bool.not_eq_true] at hbr
        simp only [hbr, Bool.false_eq_true, if_false]
        rw [lookupKey_setKey_ne _ _ _ _ hk]
        exact hacc

/-- C1: any feature key whose reducer returns the reference it received keeps a
reference-identical entry in the new root produced by `ReducerManager.reduce`; a key
is rewritten only when its reducer returns a different reference. -/
theorem reduce_preserves_identity_of_untouched_features
    (frs : List FeatureReducer) (state : RootState) (action : Option PAction)
    (k : String)
    (h : ∀ f ∈ frs, f.key = k →
      objIs (f.run ((lookupKey state k).getD f.initState) action)
            ((lookupKey state k).getD f.initState) = true) :
    lookupKey (ReducerManager.reduce frs state action) k = lookupKey state k := by
  unfold ReducerManager.reduce
  exact reduce_foldl_preserves k state action frs h state rfl

/-- Witness for C1: a root with features `a` and `b` where the sole registered reducer
(for `a`) returns its input reference; both entries keep identity. -/
theorem reduce_preserves_identity_of_untouched_features_witness :
    lookupKey
      (ReducerManager.reduce
        [⟨"a", ⟨0, 0⟩, fun s _ => s⟩]
        [("a", ⟨1, 1⟩), ("b", ⟨2, 2⟩)]
        (some (.act "incr" none))) "a"
      = lookupKey [("a", ⟨1, 1⟩), ("b", ⟨2, 2⟩)] "a" := by
  apply reduce_preserves_identity_of_untouched_features
  intro f hf _
  simp only [List.mem_singleton] at hf
  subst hf
  simp [objIs]

/-- A per-action-type state transform as registered with `create_reducer`. -/
abbrev Handler := Obj → PAction → Obj

/-- Lookup in the dict built from the registration sequence
(`action_handlers[action_type] = handler_fn` in order): the latest registration of a
type wins, so the reversed list is searched first-match. -/
def handlersGet (handlers : List (String × Handler)) (t : String) : Option Handler :=
  (handlers.reverse.find? (fun p => p.1 == t)).map (fun p => p.2)

/-- The reducer closure returned by `create_reducer` (reducers.py lines 141-174):
`None` actions return the state; otherwise the handler for the action type is fetched
from the defaultdict, whose default returns the state unchanged; a result that `is`
the input is returned as-is; otherwise it is normalized (`isinstance(result, Map)`
modelled by `isMap`, `to_immutable` by `toImm`). -/
def createReducerApply (handlers : List (String × Handler)) (isMap : Obj → Bool)
    (toImm : Obj → Obj) (state : Obj) (action : Option PAction) : Obj :=
  match action with
  | none => state
  | some a =>
    let handler := (handlersGet handlers a.type).getD (fun s _ => s)
    let result := handler state a
    if objIs result state then state
    else if isMap result then result
    else toImm result

/-- C2: a reducer built by `create_reducer` maps any action whose type has no
registered handler to exactly the input state (reference identity), via the
defaultdict default branch. -/
theorem create_reducer_unknown_action_is_identity
    (handlers : List (String × Handler)) (isMap : Obj → Bool) (toImm : Obj → Obj)
    (state : Obj) (a : PAction)
    (h : handlersGet handlers a.type = none) :
    createReducerApply handlers isMap toImm state (some a) = state := by
  simp [createReducerApply, h]

/-- Witness for C2: a reducer handling only `incr` applied to a `decr` action
returns its input state unchanged. -/
theorem create_reducer_unknown_action_is_identity_witness :
    handlersGet [("incr", fun s _ => Obj.mk (s.oid + 1) (s.val + 1))] "decr" = none
    ∧ createReducerApply [("incr", fun s _ => Obj.mk (s.oid + 1) (s.val + 1))]
        (fun _ => true) (fun o => o) ⟨3, 3⟩ (some (.act "decr" none)) = ⟨3, 3⟩ :=
  ⟨rfl, create_reducer_unknown_action_is_identity _ _ _ _ _ rfl⟩

/-- Observable events of a dispatch through the middleware chain: the hook calls of
each observer middleware (identified by its position-independent id), the extra error
action dispatched by an error-reporting stage (`ErrorMiddleware.on_error` calling
`store.dispatch(global_error(...))`), and the reach of the innermost computation. -/
inductive MwEvent where
  | onNext (i : Nat)
  | onComplete (i : Nat)
  | onError (i : Nat)
  | errorAction (i : Nat)
  | core
deriving DecidableEq, Repr

/-- One observer-style middleware: its id and whether its `on_error` hook dispatches a
global error action (as `ErrorMiddleware` does). -/
structure MwSpec where
  mid : Nat
  reportsError : Bool
deriving DecidableEq, Repr

/-- A dispatch function: given an action it yields the trace of observable events and
either the returned value (`ok`) or the exception that escaped (`error`, carrying an
opaque token identifying the exception object). -/
abbrev Dispatch := PAction → List MwEvent × Except Nat PAction

/-- The events `mw.on_error` produces: the hook itself, plus the dispatched global
error action when the middleware is an error-reporting stage. -/
def errHookEvents (mw : MwSpec) : List MwEvent :=
  if mw.reportsError then [.onError mw.mid, .errorAction mw.mid] else [.onError mw.mid]

/-- Store._wrap_obj_middleware (store.py lines 97-129): call `mw.on_next`, invoke the
next dispatch; on success call `mw.on_complete` and return the inner result; on an
exception call `mw.on_error` and re-raise the same exception. -/
def wrapObjMiddleware (mw : MwSpec) (next : Dispatch) : Dispatch :=
  fun a =>
    let inner := next a
    match inner.2 with
    | .ok res => (.onNext mw.mid :: inner.1 ++ [.onComplete mw.mid], .ok res)
    | .error e => (.onNext mw.mid :: inner.1 ++ errHookEvents mw, .error e)

/-- Store._apply_middleware_chain (store.py lines 78-95): starting from the core
dispatch, wrap each middleware around it iterating the registration list in reverse,
so the first registered middleware becomes the outermost layer. -/
def applyMiddlewareChain (mws : List MwSpec) (core : Dispatch) : Dispatch :=
  mws.reverse.foldl (fun dispatch mw => wrapObjMiddleware mw dispatch) core

theorem applyMiddlewareChain_nil (core : Dispatch) :
    applyMiddlewareChain [] core = core := rfl

theorem applyMiddlewareChain_cons (mw : MwSpec) (mws : List MwSpec) (core : Dispatch) :
    applyMiddlewareChain (mw :: mws) core
      = wrapObjMiddleware mw (applyMiddlewareChain mws core) := by
  unfold applyMiddlewareChain
  simp [List.reverse_cons, List.foldl_append]

theorem chain_ok (mws : List MwSpec) (core : Dispatch) (a : PAction)
    (tr : List MwEvent) (r : PAction) (h : core a = (tr, .ok r)) :
    applyMiddlewareChain mws core a
      = (mws.map (fun m => MwEvent.onNext m.mid) ++ tr
          ++ (mws.reverse.map (fun m => MwEvent.onComplete m.mid)), .ok r) := by
  induction mws with
  | nil => simpa [applyMiddlewareChain_nil]
  | cons mw rest ih =>
    rw [applyMiddlewareChain_cons]
    simp only [wrapObjMiddleware, ih]
    simp

theorem chain_error (mws : List MwSpec) (core : Dispatch) (a : PAction)
    (tr : List MwEvent) (e : Nat) (h : core a = (tr, .error e)) :
    applyMiddlewareChain mws core a
      = (mws.map (fun m => MwEvent.onNext m.mid) ++ tr
          ++ (mws.reverse.map errHookEvents).flatten, .error e) := by
  induction mws with
  | nil => simpa [applyMiddlewareChain_nil]
  | cons mw rest ih =>
    rw [applyMiddlewareChain_cons]
    simp only [wrapObjMiddleware, ih]
    simp

/-- C4: for two observer middleware A then B wrapped around any successful inner
dispatch, the pre-hooks fire A then B and the post-hooks fire B then A, and the inner
result is returned. -/
theorem chain_two_middleware_hook_order (A B : MwSpec) (core : Dispatch) (a : PAction)
    (tr : List MwEvent) (r : PAction) (h : core a = (tr, .ok r)) :
    applyMiddlewareChain [A, B] core a
      = ([.onNext A.mid, .onNext B.mid] ++ tr
          ++ [.onComplete B.mid, .onComplete A.mid], .ok r) := by
  rw [chain_ok [A, B] core a tr r h]
  simp

/-- Witness for C4: two concrete middleware around the raw core on a concrete action. -/
theorem chain_two_middleware_hook_order_witness :
    applyMiddlewareChain [⟨0, false⟩, ⟨1, false⟩]
        (fun act => ([.core], .ok act)) (.act "x" none)
      = ([.onNext 0, .onNext 1] ++ [.core] ++ [.onComplete 1, .onComplete 0],
          .ok (.act "x" none)) :=
  chain_two_middleware_hook_order ⟨0, false⟩ ⟨1, false⟩ _ _ [.core] _ rfl

/-- Counterexample for C3: with middleware 0 registered before (outside) middleware 1
and a failing inner dispatch, the error hooks fire inner-to-outer — hook 1 before
hook 0 — not outer-to-inner as the claim states. -/
theorem chain_error_hooks_not_outer_to_inner :
    (applyMiddlewareChain [⟨0, false⟩, ⟨1, false⟩]
        (fun _ => ([.core], .error 7)) (.act "x" none)).1.filter
        (fun ev => match ev with | .onError _ => true | _ => false)
      = [.onError 1, .onError 0]
    ∧ ([MwEvent.onError 1, .onError 0] ≠ [MwEvent.onError 0, .onError 1]) := by
  constructor
  · rfl
  · decide

/-- C3 amended: when the inner dispatch raises, every observer middleware's error hook
runs in inner-to-outer (reverse registration) order, an error-reporting stage
additionally dispatches a global error action from its hook, and the original
exception is re-raised unchanged to the dispatch caller. -/
theorem chain_error_hooks_inner_to_outer (mws : List MwSpec) (core : Dispatch)
    (a : PAction) (tr : List MwEvent) (e : Nat) (h : core a = (tr, .error e)) :
    applyMiddlewareChain mws core a
      = (mws.map (fun m => MwEvent.onNext m.mid) ++ tr
          ++ (mws.reverse.map errHookEvents).flatten, .error e) :=
  chain_error mws core a tr e h

/-- Witness for C3 amended: two middleware, the inner one error-reporting, around a
failing core; hooks run inner-to-outer, the reporter dispatches its error action, and
the original exception token 7 escapes. -/
theorem chain_error_hooks_inner_to_outer_witness :
    applyMiddlewareChain [⟨0, false⟩, ⟨1, true⟩]
        (fun _ => ([.core], .error 7)) (.act "x" none)
      = ([MwEvent.onNext 0, .onNext 1] ++ [.core]
          ++ [.onError 1, .errorAction 1, .onError 0], .error 7) := by
  rw [chain_error_hooks_inner_to_outer [⟨0, false⟩, ⟨1, true⟩] _ _ [.core] 7 rfl]
  rfl

/-- Store._dispatch_core (store.py lines 65-76): push the action onto the action
stream (which runs the reducers) and return the action itself. -/
def dispatchCoreFn : Dispatch := fun a => ([.core], .ok a)

/-- The two middleware shapes `_apply_middleware_chain` distinguishes (store.py lines
87-94): a middleware with an `on_next` attribute is observer-wrapped through
`_wrap_obj_middleware`; only a middleware without one is invoked as a functional
factory `mw(self)(dispatch)`.  Every middleware class in middleware.py inherits
`on_next` from `BaseMiddleware`, so a configured `BatchMiddleware`,
`DebounceMiddleware`, `ThunkMiddleware` or any other class of this repository always
takes the observer branch, and the dispatch function its `__call__` would build is
never installed. -/
inductive MwConfigured where
  | observer (spec : MwSpec)
  | functional (factory : Dispatch → Dispatch)

/-- Store._apply_middleware_chain with both branches (store.py lines 78-95): iterate
the registration list in reverse, observer-wrapping a middleware that has `on_next`
and applying a functional factory otherwise. -/
def applyMiddlewareChainFull (mws : List MwConfigured) (core : Dispatch) : Dispatch :=
  mws.reverse.foldl
    (fun dispatch mw =>
      match mw with
      | .observer spec => wrapObjMiddleware spec dispatch
      | .functional factory => factory dispatch)
    core

theorem applyMiddlewareChainFull_observers (mws : List MwSpec) (core : Dispatch) :
    applyMiddlewareChainFull (mws.map MwConfigured.observer) core
      = applyMiddlewareChain mws core := by
  unfold applyMiddlewareChainFull applyMiddlewareChain
  rw [← List.map_reverse, List.foldl_map]

/-- C8: `dispatch(action)` returns the action that was passed in, for every configured
middleware chain.  Every middleware class of this program inherits `on_next` from
`BaseMiddleware`, so every configured chain consists of observer-wrapped stages
(store.py line 89); the core returns the action (store.py line 76) and each observer
wrap returns the inner result unchanged (store.py line 122). -/
theorem dispatch_chain_returns_action (mws : List MwSpec) (a : PAction) :
    (applyMiddlewareChainFull (mws.map MwConfigured.observer) dispatchCoreFn a).2
      = .ok a := by
  rw [applyMiddlewareChainFull_observers,
    chain_ok mws dispatchCoreFn a [.core] a rfl]

/-- A `BatchMiddleware` instance as `store.apply_middleware` actually wires it:
`hasattr(mw, "on_next")` is true — the method is inherited from `BaseMiddleware`
(middleware.py line 41) — so `_apply_middleware_chain` takes the observer branch
(store.py line 89) and wraps it via `_wrap_obj_middleware`.  Its hooks are the
inherited no-ops (`on_next`/`on_complete`/`on_error` all `pass`), so `reportsError`
is false; the buffering dispatch of `BatchMiddleware.__call__` and its window timer
are never installed. -/
def batchMiddlewareConfigured : MwConfigured := .observer ⟨0, false⟩

/-- C5 evaluated at the failing input: `BatchMiddleware(window=W)` configured through
`apply_middleware`, then two actions dispatched within one window.  Each action
passes straight through the inert observer wrap to the core (the reducers) and is
returned; the trace contains no buffering and no aggregate action — batching never
engages, no window timer is ever armed, and no aggregate batch action with payload
`[a, b]` is ever produced. -/
theorem batch_middleware_never_engages :
    applyMiddlewareChainFull [batchMiddlewareConfigured] dispatchCoreFn
        (.act "a" none)
      = ([.onNext 0, .core, .onComplete 0], .ok (.act "a" none))
    ∧ applyMiddlewareChainFull [batchMiddlewareConfigured] dispatchCoreFn
        (.act "b" none)
      = ([.onNext 0, .core, .onComplete 0], .ok (.act "b" none)) :=
  ⟨rfl, rfl⟩

/-- The observable pieces of a `Store` (store.py): the registered feature reducers,
the current root snapshot, the actions that have gone through the dispatch path
(`_action_subject`), and the `(prev, next)` pairs emitted on the state stream
(`_state_subject`). -/
structure StoreModel where
  features : List FeatureReducer
  state : RootState
  actionLog : List PAction
  stateLog : List (RootState × RootState)

/-- update_reducer() (actions.py line 188): the internal shape-changed action. -/
def updateReducerAction : PAction := .act "[Root] Update Reducer" none

/-- Store._dispatch_core together with the `_action_subject` subscription and
`_update_state` (store.py lines 43-76): the action goes onto the action stream, the
reducers run, the root is replaced, the state stream emits `(old, new)`, and the
action is returned. -/
def Store.dispatchCore (st : StoreModel) (a : PAction) : StoreModel × PAction :=
  let newState := ReducerManager.reduce st.features st.state (some a)
  ({ st with
      actionLog := st.actionLog ++ [a],
      state := newState,
      stateLog := st.stateLog ++ [(st.state, newState)] }, a)

/-- ReducerManager.add_reducer dict semantics: registering under an existing key
replaces the reducer in place; a new key is appended. -/
def addFeature : List FeatureReducer → FeatureReducer → List FeatureReducer
  | [], f => [f]
  | g :: rest, f => if g.key = f.key then f :: rest else g :: addFeature rest f

/-- ReducerManager.remove_reducer: delete the reducer registered under the key. -/
def removeFeature (fs : List FeatureReducer) (key : String) : List FeatureReducer :=
  fs.filter (fun f => f.key != key)

/-- Store.register_feature (store.py lines 205-218): add the reducer, then call
`self._reducer_manager.reduce(self._state, update_reducer())` directly and assign the
result to `self._state`.  Neither `self.dispatch` nor `_update_state` is involved, so
the action and state streams are untouched. -/
def Store.registerFeature (st : StoreModel) (f : FeatureReducer) : StoreModel :=
  let features := addFeature st.features f
  { st with
      features := features,
      state := ReducerManager.reduce features st.state (some updateReducerAction) }

/-- Store.unregister_feature (store.py lines 220-234): remove the reducer, then
recompute `self._state` through the reducer manager directly, again without touching
the dispatch path or the state stream. -/
def Store.unregisterFeature (st : StoreModel) (key : String) : StoreModel :=
  let features := removeFeature st.features key
  { st with
      features := features,
      state := ReducerManager.reduce features st.state (some updateReducerAction) }

/-- Counterexample for C9: registering a feature recomputes the root snapshot but
dispatches nothing — the action log and the state stream stay empty even though the
root gained the new feature's substate — whereas an actual dispatch of the same
internal action through the dispatch path would have been logged on both streams. -/
theorem register_feature_does_not_dispatch_cex :
    (Store.registerFeature ⟨[], [("a", ⟨1, 1⟩)], [], []⟩
        ⟨"f", ⟨5, 5⟩, fun _ _ => ⟨9, 9⟩⟩).state
      = [("a", ⟨1, 1⟩), ("f", ⟨9, 9⟩)]
    ∧ (Store.registerFeature ⟨[], [("a", ⟨1, 1⟩)], [], []⟩
        ⟨"f", ⟨5, 5⟩, fun _ _ => ⟨9, 9⟩⟩).actionLog = []
    ∧ (Store.registerFeature ⟨[], [("a", ⟨1, 1⟩)], [], []⟩
        ⟨"f", ⟨5, 5⟩, fun _ _ => ⟨9, 9⟩⟩).stateLog = []
    ∧ (Store.dispatchCore ⟨[], [("a", ⟨1, 1⟩)], [], []⟩
        updateReducerAction).1.actionLog = [updateReducerAction]
    ∧ (Store.dispatchCore ⟨[], [("a", ⟨1, 1⟩)], [], []⟩
        updateReducerAction).1.stateLog
      = [([("a", ⟨1, 1⟩)], [("a", ⟨1, 1⟩)])] :=
  ⟨rfl, rfl, rfl, rfl, rfl⟩

/-- C9 amended: register_feature and unregister_feature apply the internal
update-reducer action synchronously through the reducer manager, replacing the root
snapshot, but the action is not dispatched through the store's dispatch path and the
state stream emits nothing. -/
theorem register_unregister_update_state_without_dispatch
    (st : StoreModel) (f : FeatureReducer) (key : String) :
    (Store.registerFeature st f).state
      = ReducerManager.reduce (addFeature st.features f) st.state
          (some updateReducerAction)
    ∧ (Store.registerFeature st f).actionLog = st.actionLog
    ∧ (Store.registerFeature st f).stateLog = st.stateLog
    ∧ (Store.unregisterFeature st key).state
      = ReducerManager.reduce (removeFeature st.features key) st.state
          (some updateReducerAction)
    ∧ (Store.unregisterFeature st key).actionLog = st.actionLog
    ∧ (Store.unregisterFeature st key).stateLog = st.stateLog :=
  ⟨rfl, rfl, rfl, rfl, rfl, rfl⟩

/-- An input selector passed to `create_selector`: it may raise (`error`, the
exception being opaque) or produce a value. -/
abbrev InputSel := Obj → Except Unit Obj

/-- A combine function (`result_fn`): it receives the list of extracted input values —
`none` standing for the Python `None` substituted when an input selector raised — and
may itself raise. -/
abbrev CombineFn := List (Option Obj) → Except Unit Obj

/-- One cache entry `(timestamp, inputs, output)` (store_selectors.py line 110). -/
abbrev CacheEntry := Nat × List (Option Obj) × Obj

/-- The closed-over mutable state of the selector: the `cache` list and
`last_result` (`None` when no output has ever been computed). -/
structure SelState where
  cache : List CacheEntry
  lastResult : Option Obj

/-- The observable outcome of one selector call: the updated closed-over state, the
returned value (`none` is Python `None`), and whether `result_fn` was invoked. -/
structure SelOutcome where
  st : SelState
  output : Option Obj
  combineInvoked : Bool

/-- The value of a possibly-raising computation, `none` when it raised. -/
def exceptToOption : Except Unit Obj → Option Obj
  | .ok v => some v
  | .error _ => none

/-- The input-extraction loop (store_selectors.py lines 67-75): each selector is run
under its own `try`; a raising selector contributes `None`. -/
def selInputs (selectors : List InputSel) (state : Obj) : List (Option Obj) :=
  selectors.map (fun sel => exceptToOption (sel state))

/-- Python `a is b` on input slots (either of which may be `None`). -/
def shallowEqOpt : Option Obj → Option Obj → Bool
  | none, none => true
  | some a, some b => a.oid == b.oid
  | _, _ => false

/-- _safe_deep_equals on two objects: the `a is b` shortcut, else structural
equality of the contents. -/
def deepEqObj (a b : Obj) : Bool := a.oid == b.oid || a.val == b.val

/-- _safe_deep_equals on input slots: `None` equals only `None` (type check), objects
compare structurally. -/
def deepEqOpt : Option Obj → Option Obj → Bool
  | none, none => true
  | some a, some b => deepEqObj a b
  | _, _ => false

/-- Shallow policy match (store_selectors.py line 100): positional `is` over
`zip(inputs, cached_inputs)` — no length check, but both tuples always have one slot
per input selector. -/
def shallowMatch (xs ys : List (Option Obj)) : Bool :=
  (xs.zip ys).all (fun p => shallowEqOpt p.1 p.2)

/-- Deep policy match via _safe_deep_equals on the two input tuples: length check then
elementwise deep equality. -/
def deepMatch (xs ys : List (Option Obj)) : Bool :=
  xs.length == ys.length && (xs.zip ys).all (fun p => deepEqOpt p.1 p.2)

/-- The cache scan (store_selectors.py lines 92-105): first entry, in list order,
whose stored inputs match under the active policy. -/
def findCached (deep : Bool) (inputs : List (Option Obj)) :
    List CacheEntry → Option Obj
  | [] => none
  | (_, ci, cr) :: rest =>
    if (if deep then deepMatch inputs ci else shallowMatch inputs ci) then some cr
    else findCached deep inputs rest

/-- TTL purge (store_selectors.py lines 83-85): drop entries older than the TTL;
no purge when no TTL was configured. -/
def ttlFilter (ttl : Option Nat) (now : Nat) (cache : List CacheEntry) :
    List CacheEntry :=
  match ttl with
  | some t => cache.filter (fun it => decide (now - it.1 ≤ t))
  | none => cache

/-- Bound maintenance (store_selectors.py lines 88-89): `while len(cache) >= maxsize:
cache.pop(0)` — oldest-first eviction down to `maxsize - 1` entries (run before the
new entry is appended; with `maxsize = 0` the Python loop would fault on an empty
list, a configuration no caller uses). -/
def evictOldest (maxsize : Nat) : List CacheEntry → List CacheEntry
  | [] => []
  | x :: rest =>
    if rest.length + 1 ≥ maxsize then evictOldest maxsize rest else x :: rest

/-- The cache maintenance performed at the start of every call: TTL purge, then
bounded eviction. -/
def selCacheMaint (ttl : Option Nat) (maxsize : Nat) (now : Nat)
    (cache : List CacheEntry) : List CacheEntry :=
  evictOldest maxsize (ttlFilter ttl now cache)

/-- One call of the memoized selector closure built by `create_selector`
(store_selectors.py lines 46-119): extract the inputs (substituting `None` for a
raising input selector), purge and bound the cache, return the first matching cached
output if any; otherwise invoke `result_fn` — on success append a cache entry and
record `last_result`, on an exception return the previous `last_result` (Python's
`last_result if last_result is not None else None`). -/
def selectorCall (selectors : List InputSel) (resultFn : CombineFn) (deep : Bool)
    (ttl : Option Nat) (maxsize : Nat) (now : Nat) (st : SelState) (state : Obj) :
    SelOutcome :=
  let inputs := selInputs selectors state
  let cache2 := selCacheMaint ttl maxsize now st.cache
  match findCached deep inputs cache2 with
  | some cr => ⟨⟨cache2, st.lastResult⟩, some cr, false⟩
  | none =>
    match resultFn inputs with
    | .ok r => ⟨⟨cache2 ++ [(now, inputs, r)], some r⟩, some r, true⟩
    | .error _ => ⟨⟨cache2, st.lastResult⟩, st.lastResult, true⟩

/-- Counterexample for C6: the sole input selector raises, but the combine function
accepts the substituted `None` and produces a fresh value 42 — the call returns that
fresh value, which is neither the last successfully computed output 7 nor the `None`
sentinel. -/
theorem selector_input_error_fresh_output_cex :
    (selectorCall [fun _ => .error ()] (fun _ => .ok ⟨42, 42⟩) false none 128 0
        ⟨[], some ⟨7, 7⟩⟩ ⟨1, 1⟩).output = some ⟨42, 42⟩
    ∧ some (Obj.mk 42 42) ≠ some (Obj.mk 7 7)
    ∧ some (Obj.mk 42 42) ≠ (none : Option Obj) := by
  refine ⟨rfl, by decide, by decide⟩

/-- C6 amended: a selector call never propagates an exception; when the combine
function raises (and no cache entry matched the computed inputs) the call returns the
last successfully computed output — the `None` sentinel if none exists — and leaves
`last_result` unchanged; when an input selector raises, `None` is substituted for
that input and the combine function is still invoked, so a successful combine yields
a fresh output rather than the last one. -/
theorem selector_error_containment
    (selectors : List InputSel) (resultFn : CombineFn) (deep : Bool)
    (ttl : Option Nat) (maxsize : Nat) (now : Nat) (st : SelState) (state : Obj)
    (hmiss : findCached deep (selInputs selectors state)
        (selCacheMaint ttl maxsize now st.cache) = none) :
    (resultFn (selInputs selectors state) = .error () →
      (selectorCall selectors resultFn deep ttl maxsize now st state).output
          = st.lastResult
      ∧ (selectorCall selectors resultFn deep ttl maxsize now st state).st.lastResult
          = st.lastResult)
    ∧ (∀ r, resultFn (selInputs selectors state) = .ok r →
      (selectorCall selectors resultFn deep ttl maxsize now st state).output = some r
      ∧ (selectorCall selectors resultFn deep ttl maxsize now st state).combineInvoked
          = true) := by
  constructor
  · intro herr
    simp [selectorCall, hmiss, herr]
  · intro r hok
    simp [selectorCall, hmiss, hok]

/-- Witness for C6 amended: a raising combine over an empty cache returns the stored
last output 7. -/
theorem selector_error_containment_witness :
    (selectorCall [fun o => .ok o] (fun _ => .error ()) false none 128 0
        ⟨[], some ⟨7, 7⟩⟩ ⟨1, 1⟩).output = some ⟨7, 7⟩ :=
  ((selector_error_containment [fun o => .ok o] (fun _ => .error ()) false none 128 0
      ⟨[], some ⟨7, 7⟩⟩ ⟨1, 1⟩ rfl).1 rfl).1

/-- C7: with the identity input selector, a successful first call caches its output;
a second call whose input is reference-identical returns the cached output without
invoking the combine function; a call whose input is a new but deeply-equal reference
re-invokes the combine function under shallow policy but returns the cached output
without invoking it under deep policy. -/
theorem selector_shallow_deep_memoization
    (x y r : Obj) (combine : CombineFn) (M now : Nat)
    (hM : 2 ≤ M) (hoid : x.oid ≠ y.oid) (hval : x.val = y.val)
    (hc : combine [some x] = .ok r) :
    ((selectorCall [fun o => .ok o] combine false none M now ⟨[], none⟩ x).output
        = some r
      ∧ (selectorCall [fun o => .ok o] combine false none M now ⟨[], none⟩
          x).combineInvoked = true)
    ∧ ((selectorCall [fun o => .ok o] combine false none M now
          (selectorCall [fun o => .ok o] combine false none M now ⟨[], none⟩ x).st
          x).output = some r
      ∧ (selectorCall [fun o => .ok o] combine false none M now
          (selectorCall [fun o => .ok o] combine false none M now ⟨[], none⟩ x).st
          x).combineInvoked = false)
    ∧ (selectorCall [fun o => .ok o] combine false none M now
        (selectorCall [fun o => .ok o] combine false none M now ⟨[], none⟩ x).st
        y).combineInvoked = true
    ∧ ((selectorCall [fun o => .ok o] combine true none M now
          (selectorCall [fun o => .ok o] combine true none M now ⟨[], none⟩ x).st
          y).output = some r
      ∧ (selectorCall [fun o => .ok o] combine true none M now
          (selectorCall [fun o => .ok o] combine true none M now ⟨[], none⟩ x).st
          y).combineInvoked = false) := by
  have h1M : ¬ M ≤ 1 := by omega
  have hfirst : ∀ dp : Bool,
      selectorCall [fun o => .ok o] combine dp none M now ⟨[], none⟩ x
        = ⟨⟨[(now, [some x], r)], some r⟩, some r, true⟩ := by
    intro dp
    simp [selectorCall, selInputs, exceptToOption, selCacheMaint, ttlFilter,
      evictOldest, findCached, hc]
  have hevict : evictOldest M [(now, [some x], r)] = [(now, [some x], r)] := by
    simp [evictOldest, h1M]
  have hbe : (y.oid == x.oid) = false := by
    simp only [beq_eq_false_iff_ne]
    exact Ne.symm hoid
  have hvbe : (y.val == x.val) = true := by
    simp [hval]
  have hsecond : selectorCall [fun o => .ok o] combine false none M now
      ⟨[(now, [some x], r)], some r⟩ x
        = ⟨⟨[(now, [some x], r)], some r⟩, some r, false⟩ := by
    simp [selectorCall, selInputs, exceptToOption, selCacheMaint, ttlFilter, hevict,
      findCached, shallowMatch, shallowEqOpt]
  have hfindy : findCached false [some y] [(now, [some x], r)] = none := by
    simp [findCached, shallowMatch, shallowEqOpt, hbe]
  have hthird : (selectorCall [fun o => .ok o] combine false none M now
      ⟨[(now, [some x], r)], some r⟩ y).combineInvoked = true := by
    cases hcy : combine [some y] with
    | error e =>
      simp [selectorCall, selInputs, exceptToOption, selCacheMaint, ttlFilter,
        hevict, hfindy, hcy]
    | ok r2 =>
      simp [selectorCall, selInputs, exceptToOption, selCacheMaint, ttlFilter,
        hevict, hfindy, hcy]
  have hdfind : findCached true [some y] [(now, [some x], r)] = some r := by
    simp [findCached, deepMatch, deepEqOpt, deepEqObj, hvbe]
  have hfourth : selectorCall [fun o => .ok o] combine true none M now
      ⟨[(now, [some x], r)], some r⟩ y
        = ⟨⟨[(now, [some x], r)], some r⟩, some r, false⟩ := by
    simp [selectorCall, selInputs, exceptToOption, selCacheMaint, ttlFilter, hevict,
      hdfind]
  refine ⟨?_, ?_, ?_, ?_⟩
  · rw [hfirst false]
    exact ⟨rfl, rfl⟩
  · rw [hfirst false]
    rw [show (⟨⟨[(now, [some x], r)], some r⟩, some r, true⟩ : SelOutcome).st
        = ⟨[(now, [some x], r)], some r⟩ from rfl, hsecond]
    exact ⟨rfl, rfl⟩
  · rw [hfirst false]
    exact hthird
  · rw [hfirst true]
    rw [show (⟨⟨[(now, [some x], r)], some r⟩, some r, true⟩ : SelOutcome).st
        = ⟨[(now, [some x], r)], some r⟩ from rfl, hfourth]
    exact ⟨rfl, rfl⟩

/-- Witness for C7: concrete objects with distinct identities and equal content; the
shallow repeat call skips the combine, the deep call on the new reference returns the
cached output. -/
theorem selector_shallow_deep_memoization_witness :
    ((selectorCall [fun o => .ok o]
        (fun l => match l with
          | [some o] => Except.ok (Obj.mk 2 o.val)
          | _ => Except.error ())
        false none 2 0
        (selectorCall [fun o => .ok o]
          (fun l => match l with
            | [some o] => Except.ok (Obj.mk 2 o.val)
            | _ => Except.error ())
          false none 2 0 ⟨[], none⟩ ⟨0, 5⟩).st ⟨0, 5⟩).combineInvoked = false)
    ∧ ((selectorCall [fun o => .ok o]
        (fun l => match l with
          | [some o] => Except.ok (Obj.mk 2 o.val)
          | _ => Except.error ())
        true none 2 0
        (selectorCall [fun o => .ok o]
          (fun l => match l with
            | [some o] => Except.ok (Obj.mk 2 o.val)
            | _ => Except.error ())
          true none 2 0 ⟨[], none⟩ ⟨0, 5⟩).st ⟨1, 5⟩).output = some ⟨2, 5⟩) := by
  have h := selector_shallow_deep_memoization ⟨0, 5⟩ ⟨1, 5⟩ ⟨2, 5⟩
    (fun l => match l with
      | [some o] => Except.ok (Obj.mk 2 o.val)
      | _ => Except.error ())
    2 0 (by omega) (by decide) rfl rfl
  exact ⟨h.2.1.2, h.2.2.2.1⟩

/-- The value `create_selector` returns: either the single input selector itself
(store_selectors.py lines 34-36) or the memoizing closure. -/
inductive CreatedSelector where
  | passthrough (sel : InputSel)
  | memoized (selectors : List InputSel) (resultFn : CombineFn) (deep : Bool)
      (ttl : Option Nat) (maxsize : Nat)

/-- The default `result_fn = lambda *args: args` (store_selectors.py line 40): builds
a fresh tuple of the inputs.  Its content is folded into `val`; its identity token is
fixed, since no claim observes the identity of this tuple. -/
def defaultResultFn : CombineFn := fun inputs =>
  .ok ⟨0, (inputs.map (fun o => (o.map Obj.val).getD 0)).sum⟩

/-- create_selector (store_selectors.py lines 20-132): with exactly one input
selector and no `result_fn`, return that selector itself; otherwise build the
memoizing closure (with the tuple-building default combine when `result_fn` was not
given). -/
def create_selector (selectors : List InputSel) (resultFn : Option CombineFn)
    (deep : Bool) (ttl : Option Nat) (maxsize : Nat) : CreatedSelector :=
  match selectors, resultFn with
  | [s], none => .passthrough s
  | sels, rf => .memoized sels (rf.getD defaultResultFn) deep ttl maxsize

/-- Calling what `create_selector` returned: the passthrough case is a plain call of
the original selector — exceptions propagate and the cache state is untouched — while
the memoized case runs the caching closure, which never raises. -/
def CreatedSelector.call : CreatedSelector → SelState → Nat → Obj →
    Except Unit SelOutcome
  | .passthrough sel, st, _, state =>
    (sel state).map (fun r => ⟨st, some r, false⟩)
  | .memoized sels rf deep ttl maxsize, st, now, state =>
    .ok (selectorCall sels rf deep ttl maxsize now st state)

/-- C10: `create_selector` with exactly one input selector and no `result_fn` returns
that selector itself, so a call is just a call of the original selector: the cache
state is returned untouched, the combine is never invoked, and an exception from the
selector propagates instead of being contained. -/
theorem create_selector_single_input_passthrough (s : InputSel) (deep : Bool)
    (ttl : Option Nat) (maxsize : Nat) :
    create_selector [s] none deep ttl maxsize = .passthrough s
    ∧ ∀ (st : SelState) (now : Nat) (state : Obj),
      CreatedSelector.call (create_selector [s] none deep ttl maxsize) st now state
        = (s state).map (fun r => ⟨st, some r, false⟩) :=
  ⟨rfl, fun _ _ _ => rfl⟩

end PyStoreX
